import Mathlib

/-!
Verification of the agent-ps message ingestion and routing pipeline.

This file gives a shallow embedding of the core pipeline of the repository:
the folder watcher (`src/mastra/services/folder-watcher.ts`, container-aware
variant), the message router (`src/mastra/config/message-router.ts`), the
message processor (`src/mastra/services/message-processor.ts`), the status
store schema (`src/mastra/schemas/message-status.ts`) and the message writer
(`message-writer.ts`).

Conventions of the embedding:
* Asynchronous I/O results (file contents parsed by gray-matter, file-system
  timestamps, the outcome of a Responder invocation, generated UUIDs and
  clock reads) are passed in as explicit parameters.
* JavaScript objects used as string-keyed maps (YAML frontmatter, metadata)
  are association lists `List (String × String)` with first-occurrence lookup,
  which matches JS object semantics when keys are unique.
* Node `path.join`/`path.relative`/`path.basename` are modelled for the
  argument shapes the pipeline produces: relative segments without trailing
  slashes or `..` traversal; `basename` of the empty string is the empty
  string, as in Node.
* Machine numbers (route priorities, poll intervals) are far from any
  overflow boundary in every configuration; they are modelled as `Int`/`Nat`.
-/

namespace AgentPS

/-! ## Path helpers (Node `path` functions, restricted to the shapes used) -/

/-- Models Node `path.join a b` for a relative segment `b` with no trailing
slash and no traversal, as produced by the configuration values. -/
def joinPath (a b : String) : String := a ++ "/" ++ b

/-- Models Node `path.relative root p` for `p` located under `root`
(the only case the watcher produces: `p` is a file inside a watched
endpoint directory under the mailbox root). -/
def relativePath (root p : String) : String :=
  if (root ++ "/").data.isPrefixOf p.data then p.drop (root.length + 1) else p

/-- The characters of the last `/`-separated component of a path. -/
def lastComponentAux : List Char → List Char → List Char
  | [], acc => acc.reverse
  | c :: cs, acc =>
    if c = '/' then lastComponentAux cs []
    else lastComponentAux cs (c :: acc)

/-- Models Node `path.basename` for paths without a trailing slash:
the last `/`-separated component (empty for the empty path, as in Node). -/
def basename (p : String) : String :=
  String.mk (lastComponentAux p.data [])

/-- Models JS `String.prototype.trim` (ASCII whitespace at both ends). -/
def jsTrim (s : String) : String :=
  String.mk
    (((s.data.dropWhile Char.isWhitespace).reverse.dropWhile
        Char.isWhitespace).reverse)

/-! ## Folder configuration (`src/mastra/schemas/folder-config.ts`) -/

/-- `direction: z.enum(['inbox', 'outbox', 'bidirectional'])`. -/
inductive Direction where
  | inbox
  | outbox
  | bidirectional
deriving DecidableEq, Repr

/-- `watchMode: z.enum(['poll', 'fsevents'])`. -/
inductive WatchMode where
  | poll
  | fsevents
deriving DecidableEq, Repr

/-- `frontmatterFieldSchema`: declared type and description do not influence
the pipeline logic; only the name and the required flag do, so the embedding
keeps those two fields. -/
structure FrontmatterField where
  name : String
  required : Bool
deriving DecidableEq, Repr

/-- `folderEndpointSchema`. `pollIntervalMs` is optional at the use site
(the watcher guards it with `?? 1000`), hence `Option Nat`. -/
structure FolderEndpoint where
  id : String
  path : String
  pattern : String
  direction : Direction
  requiredFrontmatter : List FrontmatterField
  watchMode : WatchMode
  pollIntervalMs : Option Nat
deriving DecidableEq, Repr

/-- `folderConfigSchema`. -/
structure FolderConfig where
  rootPath : String
  endpoints : List FolderEndpoint
  defaultFrontmatter : List FrontmatterField
deriving DecidableEq, Repr

/-! ## Frontmatter as a JS object (gray-matter `data`) -/

/-- Parsed YAML frontmatter: a string-keyed JS object, embedded as an
association list (keys unique in any actual parse). -/
abbrev Frontmatter := List (String × String)

/-- JS `key in object`. -/
def hasKey (fm : Frontmatter) (k : String) : Bool :=
  fm.any (fun p => p.1 == k)

/-- JS `object[key]` as an `Option` (`none` for `undefined`). -/
def lookupKey (fm : Frontmatter) (k : String) : Option String :=
  (fm.find? (fun p => p.1 == k)).map (fun p => p.2)

/-! ## Messages and folder events (`src/mastra/schemas/message.ts`) -/

/-- `messageSchema`. File-system timestamps are opaque strings here. -/
structure Message where
  id : String
  filePath : String
  endpointId : String
  frontmatter : Frontmatter
  content : String
  createdAt : String
  modifiedAt : String
deriving DecidableEq, Repr

/-- `folderEventSchema`: the discriminated union emitted by the watcher. -/
inductive FolderEvent where
  | created (message : Message)
  | updated (message : Message)
  | deleted (filePath endpointId : String)
  | error (filePath error : String)
deriving DecidableEq, Repr

/-! ## Folder watcher (`folder-watcher.ts`, container-aware variant) -/

/-- The required-field list `parseFile` validates against:
mailbox defaults with `required` set, then endpoint-specific ones. -/
def allRequired (config : FolderConfig) (endpoint : FolderEndpoint) :
    List FrontmatterField :=
  config.defaultFrontmatter.filter (fun f => f.required) ++
    endpoint.requiredFrontmatter.filter (fun f => f.required)

/-- The first required field absent from the frontmatter, in validation
order — the field whose name the thrown error message carries. -/
def firstMissing (config : FolderConfig) (endpoint : FolderEndpoint)
    (fm : Frontmatter) : Option FrontmatterField :=
  (allRequired config endpoint).find? (fun f => !hasKey fm f.name)

/-- `FolderWatcher.parseFile`. The file has already been read and split by
gray-matter into `fm` (frontmatter object) and `content`; `birthtime` and
`mtime` come from `stat`. Returns the constructed `Message` or the thrown
error message. The id derivation mirrors
`(frontmatter.id as string) || relative(rootPath, filePath)`:
JS `||` falls through on the empty string as well as on `undefined`. -/
def parseFile (config : FolderConfig) (endpoint : FolderEndpoint)
    (filePath : String) (fm : Frontmatter) (content : String)
    (birthtime mtime : String) : Except String Message :=
  match firstMissing config endpoint fm with
  | some f => .error ("Missing required frontmatter field: " ++ f.name)
  | none =>
    .ok
      { id :=
          match lookupKey fm "id" with
          | some v => if v == "" then relativePath config.rootPath filePath else v
          | none => relativePath config.rootPath filePath
        filePath := filePath
        endpointId := endpoint.id
        frontmatter := fm
        content := jsTrim content
        createdAt := birthtime
        modifiedAt := mtime }

/-- The action discriminant of `FolderWatcher.handleFile`. -/
inductive FileAction where
  | created
  | updated
deriving DecidableEq, Repr

/-- `FolderWatcher.handleFile`: parse the file and emit the corresponding
success event, or emit an `error` event carrying the parse failure. -/
def handleFile (action : FileAction) (config : FolderConfig)
    (endpoint : FolderEndpoint) (filePath : String) (fm : Frontmatter)
    (content : String) (birthtime mtime : String) : FolderEvent :=
  match parseFile config endpoint filePath fm content birthtime mtime with
  | .ok message =>
    match action with
    | .created => .created message
    | .updated => .updated message
  | .error e => .error filePath e

/-- `FolderWatcher.watchEndpoint` polling decision:
`endpoint.watchMode === 'poll' || this.forcePolling`, where `forcePolling`
is the construction-time result of `isContainerEnvironment()`. -/
def shouldPoll (forcePolling : Bool) (endpoint : FolderEndpoint) : Bool :=
  (endpoint.watchMode == .poll) || forcePolling

/-- `FolderWatcher.watchEndpoint` interval: `endpoint.pollIntervalMs ?? 1000`. -/
def watchInterval (endpoint : FolderEndpoint) : Nat :=
  endpoint.pollIntervalMs.getD 1000

/-- The endpoints `FolderWatcher.start` subscribes to: every configured
endpoint except those with `direction === 'outbox'`. -/
def startTargets (config : FolderConfig) : List FolderEndpoint :=
  config.endpoints.filter (fun e => !(e.direction == .outbox))

/-- The watcher's mutable state: the running flag and the endpoints with an
active `FSWatcher` in `this.watchers` (keyed by endpoint id in the code). -/
structure WatcherState where
  isRunning : Bool
  watchers : List FolderEndpoint
deriving DecidableEq, Repr

/-- Freshly constructed watcher: not running, no active watchers. -/
def initialWatcherState : WatcherState :=
  { isRunning := false, watchers := [] }

/-- The watcher's public lifecycle operations. -/
inductive WatcherAction where
  | start
  | stop
deriving DecidableEq, Repr

/-- One lifecycle step: `start()` returns early when already running,
otherwise registers a watcher per non-outbox endpoint; `stop()` closes and
removes every watcher. -/
def watcherStep (config : FolderConfig) (s : WatcherState) :
    WatcherAction → WatcherState
  | .start =>
    if s.isRunning then s
    else { isRunning := true, watchers := s.watchers ++ startTargets config }
  | .stop => { isRunning := false, watchers := [] }

/-- The watcher state reached from construction by a sequence of
`start`/`stop` calls. -/
def runWatcher (config : FolderConfig) (acts : List WatcherAction) :
    WatcherState :=
  acts.foldl (watcherStep config) initialWatcherState

/-! ## Endpoint queries (`src/mastra/config/folders.ts`) -/

/-- `getInboxEndpoints`: endpoints accepting incoming messages. -/
def getInboxEndpoints (config : FolderConfig) : List FolderEndpoint :=
  config.endpoints.filter
    (fun e => e.direction == .inbox || e.direction == .bidirectional)

/-- The configuration the `MessageProcessor` constructor hands to the
`FolderWatcher` it owns: the mailbox configuration restricted to
inbox-direction endpoints. -/
def processorWatchConfig (config : FolderConfig) : FolderConfig :=
  { config with endpoints := getInboxEndpoints config }

/-! ## Message status (`src/mastra/schemas/message-status.ts`) -/

/-- `messageStatusValue`. -/
inductive StatusValue where
  | pending
  | processing
  | completed
  | failed
deriving DecidableEq, Repr

/-- `messageStatusSchema`. -/
structure MessageStatus where
  id : String
  status : StatusValue
  endpoint : String
  filename : String
  createdAt : String
  processedAt : Option String := none
  error : Option String := none
  summary : Option String := none
deriving DecidableEq, Repr

/-- The durable `message_statuses` table, keyed by message id. -/
abbrev StatusStore := List MessageStatus

/-- `updateMessageStatus`: `INSERT OR REPLACE` keyed by `id`. -/
def upsertStatus (store : StatusStore) (s : MessageStatus) : StatusStore :=
  if store.any (fun t => t.id == s.id) then
    store.map (fun t => if t.id == s.id then s else t)
  else store ++ [s]

/-- Apply a sequence of `updateMessageStatus` calls in order. -/
def applyWrites (store : StatusStore) (writes : List MessageStatus) :
    StatusStore :=
  writes.foldl upsertStatus store

/-! ## Message processor (`src/mastra/services/message-processor.ts`) -/

/-- `MessageProcessor.processMessage`, abstracted over the outcome of the
awaited `router.routeMessage` call (`.ok (handler, result)` for a normal
return, `.error e` for a thrown error) and over the two clock reads.
The value is the ordered sequence of `updateMessageStatus` calls the method
performs: the initial `pending` record, then — unless the extracted filename
is empty, in which case the guard throws before the `processing` write —
the `processing` record, then the terminal `completed` or `failed` record. -/
def processMessage (m : Message)
    (routeResult : Except String (String × String))
    (tDetected tProcessed : String) : List MessageStatus :=
  let filename := basename m.filePath
  let s0 : MessageStatus :=
    { id := m.id, status := .pending, endpoint := m.endpointId
      filename := filename, createdAt := tDetected }
  if filename == "" then
    [s0,
     { s0 with status := .failed, processedAt := some tProcessed,
               error := some "Could not extract filename from path" }]
  else
    let s1 := { s0 with status := StatusValue.processing }
    match routeResult with
    | .ok (_, result) =>
      [s0, s1,
       { s1 with status := .completed, processedAt := some tProcessed,
                 summary := some result }]
    | .error e =>
      [s0, s1,
       { s1 with status := .failed, processedAt := some tProcessed,
                 error := some e }]

/-- `MessageProcessor.handleEvent`: only `message:created` events enter
`processMessage`; `message:updated`, `message:deleted` and `error` events
are logged and perform no status write. The value is the ordered sequence
of `updateMessageStatus` calls triggered by the event. -/
def handleEvent (event : FolderEvent)
    (routeResult : Except String (String × String))
    (tDetected tProcessed : String) : List MessageStatus :=
  match event with
  | .created m => processMessage m routeResult tDetected tProcessed
  | .updated _ => []
  | .deleted _ _ => []
  | .error _ _ => []

/-! ## Message router (`src/mastra/config/message-router.ts`) -/

/-- `handlerType: 'agent' | 'workflow'`. -/
inductive HandlerType where
  | agent
  | workflow
deriving DecidableEq, Repr

/-- `MessageRoute`. -/
structure MessageRoute where
  endpoint : String
  type : String
  handlerType : HandlerType
  handlerId : String
  priority : Option Int := none
deriving DecidableEq, Repr

/-- The default handler of a `RouterConfig`. -/
structure DefaultHandler where
  handlerType : HandlerType
  handlerId : String
deriving DecidableEq, Repr

/-- `RouterConfig`. -/
structure RouterConfig where
  routes : List MessageRoute
  defaultHandler : DefaultHandler
deriving DecidableEq, Repr

/-- `route.priority ?? 0`, as used by the sort comparator. -/
def priorityOf (r : MessageRoute) : Int :=
  r.priority.getD 0

/-- Insert a route into a priority-descending sorted list, after every
element of greater-or-equal priority. -/
def insertRoute (r : MessageRoute) : List MessageRoute → List MessageRoute
  | [] => [r]
  | y :: ys =>
    if priorityOf y ≤ priorityOf r then r :: y :: ys
    else y :: insertRoute r ys

/-- `[...routes].sort((a, b) => (b.priority ?? 0) - (a.priority ?? 0))`:
JS `Array.prototype.sort` is stable (ES2019), so the result is the unique
priority-descending reordering in which routes of equal priority keep their
declaration order; `sortRoutes` computes exactly that list (each route is
placed after all earlier-declared routes of greater-or-equal priority). -/
def sortRoutes : List MessageRoute → List MessageRoute
  | [] => []
  | x :: xs => insertRoute x (sortRoutes xs)

/-- The match test of `findRoute`:
`(route.endpoint === '*' || route.endpoint === endpoint) &&
 (route.type === '*' || route.type === (messageType ?? '*'))`. -/
def routeMatches (r : MessageRoute) (endpoint : String)
    (messageType : Option String) : Bool :=
  (r.endpoint == "*" || r.endpoint == endpoint) &&
    (r.type == "*" || r.type == messageType.getD "*")

/-- `MessageRouter.findRoute`: scan the priority-sorted routes and return
the first match, or `none`. -/
def findRoute (config : RouterConfig) (endpoint : String)
    (messageType : Option String) : Option MessageRoute :=
  (sortRoutes config.routes).find? (fun r => routeMatches r endpoint messageType)

/-- Specification-level reading of route selection, computed directly on the
declaration-ordered route list without sorting: the earliest-declared route,
among those that match, whose priority no other match strictly exceeds.
Used to state that `findRoute` refines the spec's description. -/
def bestRoute (endpoint : String) (messageType : Option String) :
    List MessageRoute → Option MessageRoute
  | [] => none
  | r :: rs =>
    match bestRoute endpoint messageType rs with
    | none => if routeMatches r endpoint messageType then some r else none
    | some b =>
      if routeMatches r endpoint messageType ∧ priorityOf b ≤ priorityOf r
      then some r else some b

/-- The result object of a workflow run, as inspected by `routeMessage`:
either an object exposing a `summary` field, or anything else. -/
inductive RunResult where
  | withSummary (summary : String)
  | noSummary
deriving DecidableEq, Repr

/-- `typeof result === 'object' && result !== null && 'summary' in result
? String(result.summary) : 'Processed via workflow'`. -/
def workflowSummary : RunResult → String
  | .withSummary s => s
  | .noSummary => "Processed via workflow"

/-- The external Mastra registry as `routeMessage` consults it: each
registered workflow id is mapped to the result its run produces, each
registered agent id to the text its `generate` call returns. Absent ids
model `getWorkflow`/`getAgent` returning nothing. -/
structure MastraModel where
  workflows : List (String × RunResult)
  agents : List (String × String)

/-- The handler `routeMessage` resolves: the matched route, or the
configured default handler when no route matches. -/
def resolveHandler (config : RouterConfig) (endpoint : String)
    (messageType : Option String) : HandlerType × String :=
  match findRoute config endpoint messageType with
  | some r => (r.handlerType, r.handlerId)
  | none => (config.defaultHandler.handlerType, config.defaultHandler.handlerId)

/-- `MessageRouter.routeMessage`: resolve the handler, dispatch to the
workflow or agent Responder, and return `{handler, result}`; a missing
workflow or agent becomes a thrown error (`.error`). -/
def routeMessage (mastra : MastraModel) (config : RouterConfig)
    (_filename endpoint : String) (messageType : Option String) :
    Except String (String × String) :=
  let h := resolveHandler config endpoint messageType
  match h.1 with
  | .workflow =>
    match (mastra.workflows.find? (fun p => p.1 == h.2)).map (fun p => p.2) with
    | none => .error ("Workflow not found: " ++ h.2)
    | some result => .ok (h.2, workflowSummary result)
  | .agent =>
    match (mastra.agents.find? (fun p => p.1 == h.2)).map (fun p => p.2) with
    | none => .error ("Agent not found: " ++ h.2)
    | some text => .ok (h.2, text)

/-! ## Message writer (`message-writer.ts`) -/

/-- `WriteMessageOptions`. The optional `frontmatter` object is the empty
list when absent; metadata values are the strings the YAML lines serialize. -/
structure WriteMessageOptions where
  endpointId : String
  content : String
  frontmatter : List (String × String) := []
  filename : Option String := none
deriving DecidableEq, Repr

/-- One JS property assignment during object spread: an existing key keeps
its position and takes the new value, a new key is appended. -/
def objAssign (base : List (String × String)) (kv : String × String) :
    List (String × String) :=
  if base.any (fun p => p.1 == kv.1) then
    base.map (fun p => if p.1 == kv.1 then kv else p)
  else base ++ [kv]

/-- `{ id, timestamp, ...options.frontmatter }`: start from the generated
pair and spread the caller's metadata over it, caller values winning on
key collision. -/
def buildFrontmatter (id timestamp : String)
    (extra : List (String × String)) : List (String × String) :=
  extra.foldl objAssign [("id", id), ("timestamp", timestamp)]

/-- What `MessageWriter.write` puts on disk: the destination path and the
serialized metadata-plus-body content, with the metadata kept structured. -/
structure WrittenFile where
  filePath : String
  frontmatter : List (String × String)
  content : String
deriving DecidableEq, Repr

/-- `MessageWriter.write`, abstracted over the generated `randomUUID()` and
`new Date().toISOString()` values. Throws (`.error`) when `endpointId` names
no configured endpoint; otherwise derives the filename
(`options.filename || id + '.md'`, JS `||` falling through on the empty
string), the destination path, and the metadata object. -/
def write (config : FolderConfig) (options : WriteMessageOptions)
    (uuid timestamp : String) : Except String WrittenFile :=
  match config.endpoints.find? (fun e => e.id == options.endpointId) with
  | none => .error ("Endpoint not found: " ++ options.endpointId)
  | some endpoint =>
    let filename :=
      match options.filename with
      | some f => if f == "" then uuid ++ ".md" else f
      | none => uuid ++ ".md"
    .ok
      { filePath := joinPath (joinPath config.rootPath endpoint.path) filename
        frontmatter := buildFrontmatter uuid timestamp options.frontmatter
        content := options.content }

/-! ## Concrete fixtures (used to instantiate the theorems below) -/

/-- Mailbox-default required field `id` (from `defaultFrontmatter`). -/
def idField : FrontmatterField := { name := "id", required := true }

/-- Mailbox-default required field `timestamp`. -/
def timestampField : FrontmatterField := { name := "timestamp", required := true }

/-- An inbox endpoint shaped like the `inbox` entry of `defaultFolderConfig`. -/
def epInbox : FolderEndpoint :=
  { id := "inbox", path := "inbox", pattern := "**/*.md", direction := .inbox
    requiredFrontmatter := [], watchMode := .fsevents, pollIntervalMs := some 5000 }

/-- An outbox endpoint shaped like the `outbox` entry of `defaultFolderConfig`. -/
def epOutbox : FolderEndpoint :=
  { id := "outbox", path := "outbox", pattern := "**/*.md", direction := .outbox
    requiredFrontmatter := [], watchMode := .fsevents, pollIntervalMs := some 5000 }

/-- A bugs endpoint with an endpoint-specific required field, in poll mode. -/
def epBugs : FolderEndpoint :=
  { id := "bugs", path := "bugs", pattern := "**/*.md", direction := .inbox
    requiredFrontmatter := [{ name := "severity", required := true }]
    watchMode := .poll, pollIntervalMs := some 2000 }

/-- A mailbox configuration shaped like `defaultFolderConfig`. -/
def sampleConfig : FolderConfig :=
  { rootPath := "root", endpoints := [epInbox, epOutbox, epBugs]
    defaultFrontmatter := [idField, timestampField] }

/-- A message as the watcher would construct it from `root/inbox/a.md`. -/
def sampleMessage : Message :=
  { id := "msg-1", filePath := "root/inbox/a.md", endpointId := "inbox"
    frontmatter := [("id", "msg-1"), ("timestamp", "2024-01-01")]
    content := "hello", createdAt := "t0", modifiedAt := "t0" }

/-- The message `parseFile` constructs from a file whose frontmatter carries
an empty-string `id` (plus the required `timestamp`). -/
def emptyIdMessage : Message :=
  { id := "inbox/a.md", filePath := "root/inbox/a.md", endpointId := "inbox"
    frontmatter := [("id", ""), ("timestamp", "2024-01-01")]
    content := "body", createdAt := "t0", modifiedAt := "t1" }

/-- The message `parseFile` constructs from a file carrying `id: "X"`. -/
def explicitIdMessage : Message :=
  { id := "X", filePath := "root/inbox/a.md", endpointId := "inbox"
    frontmatter := [("id", "X"), ("timestamp", "2024-01-01")]
    content := "body", createdAt := "t0", modifiedAt := "t1" }

/-- An exact-match route at priority 5, declared first. -/
def exactRoute : MessageRoute :=
  { endpoint := "inbox", type := "question", handlerType := .workflow
    handlerId := "messageWorkflow", priority := some 5 }

/-- A `'*'`/`'*'` route at priority 10, declared second. -/
def wildcardRoute : MessageRoute :=
  { endpoint := "*", type := "*", handlerType := .agent
    handlerId := "conciergeAgent", priority := some 10 }

/-- Router configuration opposing an exact-match priority-5 route to a
wildcard priority-10 route. -/
def prioConfig : RouterConfig :=
  { routes := [exactRoute, wildcardRoute]
    defaultHandler := { handlerType := .agent, handlerId := "conciergeAgent" } }

/-- First-declared of two equal-priority routes that both match. -/
def tieRouteA : MessageRoute :=
  { endpoint := "inbox", type := "*", handlerType := .agent
    handlerId := "firstAgent", priority := some 5 }

/-- Second-declared of two equal-priority routes that both match. -/
def tieRouteB : MessageRoute :=
  { endpoint := "*", type := "question", handlerType := .agent
    handlerId := "secondAgent", priority := some 5 }

/-- Router configuration with an equal-priority tie. -/
def tieConfig : RouterConfig :=
  { routes := [tieRouteA, tieRouteB]
    defaultHandler := { handlerType := .agent, handlerId := "conciergeAgent" } }

/-- Router configuration whose default handler is a workflow. -/
def wfRouterConfig : RouterConfig :=
  { routes := []
    defaultHandler := { handlerType := .workflow, handlerId := "messageWorkflow" } }

/-- A registry whose only workflow run yields a result with no `summary`. -/
def mastraNoSummary : MastraModel :=
  { workflows := [("messageWorkflow", .noSummary)], agents := [] }

/-- A registry whose only workflow run yields `{summary: "handled"}`. -/
def mastraWithSummary : MastraModel :=
  { workflows := [("messageWorkflow", .withSummary "handled")], agents := [] }

/-- Write options overriding the generated metadata `id`. -/
def overrideIdOptions : WriteMessageOptions :=
  { endpointId := "inbox", content := "hi", frontmatter := [("id", "custom")] }

/-- The file `write sampleConfig overrideIdOptions "UUID-1" "TS"` produces. -/
def overrideIdWritten : WrittenFile :=
  { filePath := "root/inbox/UUID-1.md"
    frontmatter := [("id", "custom"), ("timestamp", "TS")], content := "hi" }

/-! ## Route sorting lemmas -/

theorem mem_insertRoute {a r : MessageRoute} {s : List MessageRoute} :
    a ∈ insertRoute r s ↔ a = r ∨ a ∈ s := by
  induction s with
  | nil => simp [insertRoute]
  | cons y ys ih =>
    by_cases h : priorityOf y ≤ priorityOf r
    · simp [insertRoute, if_pos h, List.mem_cons]
    · simp only [insertRoute, if_neg h, List.mem_cons, ih]
      tauto

theorem pairwise_insertRoute {r : MessageRoute} {s : List MessageRoute}
    (hs : s.Pairwise (fun a b => priorityOf b ≤ priorityOf a)) :
    (insertRoute r s).Pairwise (fun a b => priorityOf b ≤ priorityOf a) := by
  induction s with
  | nil => simp [insertRoute]
  | cons y ys ih =>
    rcases List.pairwise_cons.mp hs with ⟨hy, hys⟩
    by_cases h : priorityOf y ≤ priorityOf r
    · rw [insertRoute, if_pos h]
      refine List.pairwise_cons.mpr ⟨?_, hs⟩
      intro z hz
      rcases List.mem_cons.mp hz with rfl | hz'
      · exact h
      · exact le_trans (hy z hz') h
    · rw [insertRoute, if_neg h]
      refine List.pairwise_cons.mpr ⟨?_, ih hys⟩
      intro z hz
      rcases mem_insertRoute.mp hz with rfl | hz'
      · exact le_of_lt (lt_of_not_ge h)
      · exact hy z hz'

theorem pairwise_sortRoutes (l : List MessageRoute) :
    (sortRoutes l).Pairwise (fun a b => priorityOf b ≤ priorityOf a) := by
  induction l with
  | nil => simp [sortRoutes]
  | cons x xs ih =>
    rw [sortRoutes]
    exact pairwise_insertRoute ih

theorem find?_insertRoute_none {m : MessageRoute → Bool} {r : MessageRoute}
    {s : List MessageRoute} (h : s.find? m = none) :
    (insertRoute r s).find? m = if m r then some r else none := by
  induction s with
  | nil => cases hmr : m r <;> simp [insertRoute, List.find?, hmr]
  | cons y ys ih =>
    have hy : m y = false := by
      have := List.find?_eq_none.mp h y (List.mem_cons_self y ys)
      simpa using this
    have hys : ys.find? m = none :=
      List.find?_eq_none.mpr
        (fun a ha => List.find?_eq_none.mp h a (List.mem_cons_of_mem _ ha))
    by_cases hp : priorityOf y ≤ priorityOf r
    · rw [insertRoute, if_pos hp]
      cases hmr : m r <;> simp [List.find?_cons, hmr, hy, hys]
    · rw [insertRoute, if_neg hp]
      cases hmr : m r <;> simp [List.find?_cons, hy, ih hys, hmr]

theorem find?_insertRoute_some {m : MessageRoute → Bool} {r y : MessageRoute}
    {s : List MessageRoute}
    (hs : s.Pairwise (fun a b => priorityOf b ≤ priorityOf a))
    (h : s.find? m = some y) :
    (insertRoute r s).find? m =
      if m r = true ∧ priorityOf y ≤ priorityOf r then some r else some y := by
  induction s with
  | nil => simp at h
  | cons z zs ih =>
    rcases List.pairwise_cons.mp hs with ⟨hz, hzs⟩
    by_cases hp : priorityOf z ≤ priorityOf r
    · rw [insertRoute, if_pos hp]
      have hymem : y ∈ z :: zs := List.mem_of_find?_eq_some h
      have hyr : priorityOf y ≤ priorityOf r := by
        rcases List.mem_cons.mp hymem with rfl | hy'
        · exact hp
        · exact le_trans (hz y hy') hp
      cases hmr : m r
      · simp [List.find?_cons, hmr, h]
      · simp [List.find?_cons, hmr, hyr]
    · rw [insertRoute, if_neg hp]
      cases hmz : m z
      · have h' : zs.find? m = some y := by
          simpa [List.find?_cons, hmz] using h
        simp [List.find?_cons, hmz, ih hzs h']
      · have hyz : z = y := by
          simpa [List.find?_cons, hmz] using h
        subst hyz
        simp [List.find?_cons, hmz, hp]

theorem find?_sortRoutes (endpoint : String) (t : Option String)
    (l : List MessageRoute) :
    (sortRoutes l).find? (fun r => routeMatches r endpoint t) =
      bestRoute endpoint t l := by
  induction l with
  | nil => rfl
  | cons x xs ih =>
    rw [sortRoutes]
    cases hb : (sortRoutes xs).find? (fun r => routeMatches r endpoint t) with
    | none =>
      rw [find?_insertRoute_none hb, bestRoute, ← ih, hb]
    | some b =>
      rw [find?_insertRoute_some (pairwise_sortRoutes xs) hb, bestRoute, ← ih, hb]

/-! ## Metadata spread lemmas -/

theorem lookupKey_nil (k : String) : lookupKey [] k = none := rfl

theorem lookupKey_cons (x : String × String) (xs : List (String × String))
    (k : String) :
    lookupKey (x :: xs) k = if x.1 = k then some x.2 else lookupKey xs k := by
  by_cases hx : x.1 = k
  · simp [lookupKey, List.find?_cons, hx]
  · simp [lookupKey, List.find?_cons, hx]

theorem lookupKey_objAssign_self (base : List (String × String))
    (kv : String × String) :
    lookupKey (objAssign base kv) kv.1 = some kv.2 := by
  unfold objAssign
  by_cases hb : base.any (fun p => p.1 == kv.1) = true
  · rw [if_pos hb]
    induction base with
    | nil => simp at hb
    | cons p ps ih =>
      by_cases hp : p.1 = kv.1
      · simp [List.map_cons, lookupKey_cons, hp]
      · have hb' : ps.any (fun p => p.1 == kv.1) = true := by
          simpa [List.any_cons, hp] using hb
        simpa [List.map_cons, lookupKey_cons, hp] using ih hb'
  · rw [if_neg hb]
    induction base with
    | nil => simp [lookupKey_cons]
    | cons p ps ih =>
      have hp : ¬ p.1 = kv.1 := by
        intro hc
        exact hb (by simp [List.any_cons, hc])
      have hb' : ¬ ps.any (fun p => p.1 == kv.1) = true := by
        intro hc
        exact hb (by simp [List.any_cons, hc])
      simpa [List.cons_append, lookupKey_cons, hp] using ih hb'

theorem lookupKey_map_replace (ps : List (String × String))
    (kv : String × String) (k : String) (h : k ≠ kv.1) :
    lookupKey (ps.map (fun q => if q.1 == kv.1 then kv else q)) k =
      lookupKey ps k := by
  induction ps with
  | nil => rfl
  | cons p ps ih =>
    have h1 : ¬ kv.1 = k := fun hc => h hc.symm
    by_cases hp : p.1 = kv.1
    · have h2 : ¬ p.1 = k := fun hc => h1 (hp ▸ hc)
      simpa [List.map_cons, lookupKey_cons, hp, h1, h2] using ih
    · by_cases hpk : p.1 = k
      · simp [List.map_cons, lookupKey_cons, hp, hpk, h]
      · simpa [List.map_cons, lookupKey_cons, hp, hpk] using ih

theorem lookupKey_append_single (ps : List (String × String))
    (kv : String × String) (k : String) (h : k ≠ kv.1) :
    lookupKey (ps ++ [kv]) k = lookupKey ps k := by
  have h1 : ¬ kv.1 = k := fun hc => h hc.symm
  induction ps with
  | nil => simp [lookupKey_cons, h1]
  | cons p ps ih =>
    by_cases hpk : p.1 = k
    · simp [List.cons_append, lookupKey_cons, hpk]
    · simpa [List.cons_append, lookupKey_cons, hpk] using ih

theorem lookupKey_objAssign_ne (base : List (String × String))
    (kv : String × String) (k : String) (h : k ≠ kv.1) :
    lookupKey (objAssign base kv) k = lookupKey base k := by
  unfold objAssign
  by_cases hb : base.any (fun p => p.1 == kv.1) = true
  · rw [if_pos hb]
    exact lookupKey_map_replace base kv k h
  · rw [if_neg hb]
    exact lookupKey_append_single base kv k h

theorem lookupKey_spread_not_mem (extra : List (String × String))
    (base : List (String × String)) (k : String)
    (h : k ∉ extra.map Prod.fst) :
    lookupKey (extra.foldl objAssign base) k = lookupKey base k := by
  induction extra generalizing base with
  | nil => rfl
  | cons e es ih =>
    simp only [List.map_cons, List.mem_cons] at h
    push_neg at h
    rw [List.foldl_cons, ih _ h.2, lookupKey_objAssign_ne base e k h.1]

theorem lookupKey_spread_mem (extra : List (String × String)) (k v : String)
    (hnd : (extra.map Prod.fst).Nodup) (hmem : (k, v) ∈ extra) :
    ∀ base, lookupKey (extra.foldl objAssign base) k = some v := by
  induction extra with
  | nil => simp at hmem
  | cons e es ih =>
    intro base
    rw [List.foldl_cons]
    rw [List.map_cons] at hnd
    rcases List.mem_cons.mp hmem with heq | hmem'
    · subst heq
      have hknot : k ∉ es.map Prod.fst := (List.nodup_cons.mp hnd).1
      rw [lookupKey_spread_not_mem es _ k hknot]
      exact lookupKey_objAssign_self base (k, v)
    · exact ih (List.nodup_cons.mp hnd).2 hmem' _

/-! ## Watcher state invariant -/

theorem runWatcher_watchers_subset (config : FolderConfig)
    (acts : List WatcherAction) :
    ∀ e ∈ (runWatcher config acts).watchers, e ∈ startTargets config := by
  suffices h : ∀ (acts : List WatcherAction) (s : WatcherState),
      (∀ e ∈ s.watchers, e ∈ startTargets config) →
      ∀ e ∈ (acts.foldl (watcherStep config) s).watchers,
        e ∈ startTargets config by
    exact h acts initialWatcherState (by simp [initialWatcherState])
  intro acts
  induction acts with
  | nil => intro s hs; simpa using hs
  | cons a as ih =>
    intro s hs
    rw [List.foldl_cons]
    apply ih
    cases a with
    | start =>
      by_cases hr : s.isRunning
      · simpa [watcherStep, hr] using hs
      · intro e he
        simp only [watcherStep, if_neg hr, List.mem_append] at he
        rcases he with he | he
        · exact hs e he
        · exact he
    | stop =>
      intro e he
      simp [watcherStep] at he

/-! ## Claim theorems -/

/-- Claim C1: processing one `created` event persists exactly the ordered
status-record sequence `pending, processing, completed` when `routeMessage`
returns normally, and exactly `pending, processing, failed` when it throws,
each record written individually by `updateMessageStatus` and carrying the
message's id — no other ordering and no skipped step. The hypothesis that
the extracted filename is non-empty holds for every event the watcher can
emit (its paths name `.md` files). -/
theorem processMessage_status_sequence (m : Message)
    (hdl res err tDetected tProcessed : String)
    (h : basename m.filePath ≠ "") :
    ((processMessage m (.ok (hdl, res)) tDetected tProcessed).map
        (fun s => s.status) = [.pending, .processing, .completed] ∧
      ∀ s ∈ processMessage m (.ok (hdl, res)) tDetected tProcessed,
        s.id = m.id) ∧
    ((processMessage m (.error err) tDetected tProcessed).map
        (fun s => s.status) = [.pending, .processing, .failed] ∧
      ∀ s ∈ processMessage m (.error err) tDetected tProcessed,
        s.id = m.id) := by
  refine ⟨⟨?_, ?_⟩, ⟨?_, ?_⟩⟩ <;> simp [processMessage, h]

/-- Witness for C1 at a concrete message with a successful routing result. -/
theorem processMessage_status_sequence_witness :
    (processMessage sampleMessage (.ok ("conciergeAgent", "done")) "t1" "t2").map
      (fun s => s.status) = [.pending, .processing, .completed] :=
  ((processMessage_status_sequence sampleMessage "conciergeAgent" "done" "boom"
      "t1" "t2" (by decide)).1).1

/-- Claim C6: `updated`, `deleted` and `parseError` events leave the status
store untouched — the processor performs no `updateMessageStatus` call for
them, so applying the (empty) write sequence of such an event to any store
state returns it unchanged. -/
theorem handleEvent_frame_non_created :
    (∀ (m : Message) (r : Except String (String × String)) (t1 t2 : String)
        (store : StatusStore),
        applyWrites store (handleEvent (.updated m) r t1 t2) = store) ∧
    (∀ (fp eid : String) (r : Except String (String × String))
        (t1 t2 : String) (store : StatusStore),
        applyWrites store (handleEvent (.deleted fp eid) r t1 t2) = store) ∧
    (∀ (fp e : String) (r : Except String (String × String))
        (t1 t2 : String) (store : StatusStore),
        applyWrites store (handleEvent (.error fp e) r t1 t2) = store) :=
  ⟨fun _ _ _ _ _ => rfl, fun _ _ _ _ _ _ => rfl, fun _ _ _ _ _ _ => rfl⟩

/-- Claim C7: the watcher owned by the message processor only ever holds
active watchers for endpoints of the original mailbox configuration whose
direction is `inbox` or `bidirectional` — in every state reachable by any
sequence of `start`/`stop` calls, an outbox endpoint is never watched and
thus never produces a folder event. -/
theorem processor_watcher_inbox_only (config : FolderConfig)
    (acts : List WatcherAction) (e : FolderEndpoint)
    (h : e ∈ (runWatcher (processorWatchConfig config) acts).watchers) :
    e ∈ config.endpoints ∧
    (e.direction = .inbox ∨ e.direction = .bidirectional) ∧
    e.direction ≠ .outbox := by
  have h1 := runWatcher_watchers_subset (processorWatchConfig config) acts e h
  simp only [startTargets, processorWatchConfig, getInboxEndpoints,
    List.mem_filter] at h1
  obtain ⟨⟨hmem, hdir⟩, -⟩ := h1
  have hdir' : e.direction = .inbox ∨ e.direction = .bidirectional := by
    simpa using hdir
  refine ⟨hmem, hdir', ?_⟩
  rcases hdir' with h2 | h2 <;> simp [h2]

/-- Witness for C7: after `start()`, the inbox endpoint is watched and
satisfies the invariant. -/
theorem processor_watcher_inbox_only_witness :
    epInbox ∈ sampleConfig.endpoints ∧
    (epInbox.direction = .inbox ∨ epInbox.direction = .bidirectional) ∧
    epInbox.direction ≠ .outbox :=
  processor_watcher_inbox_only sampleConfig [WatcherAction.start] epInbox
    (by decide)

/-- Claim C8: in a container environment (forced polling) the watcher polls
regardless of the endpoint's declared watch mode; outside one, the declared
watch mode decides polling, and a declared poll interval is used as given. -/
theorem folderWatcher_polling_decision :
    (∀ e : FolderEndpoint, shouldPoll true e = true) ∧
    (∀ e : FolderEndpoint, shouldPoll false e = (e.watchMode == .poll)) ∧
    (∀ (e : FolderEndpoint) (i : Nat),
        e.pollIntervalMs = some i → watchInterval e = i) :=
  ⟨fun e => by simp [shouldPoll],
   fun e => by simp [shouldPoll],
   fun e i h => by simp [watchInterval, h]⟩

/-- Witness for C8: the bugs endpoint's declared 2000 ms interval is used. -/
theorem folderWatcher_polling_decision_witness :
    watchInterval epBugs = 2000 :=
  folderWatcher_polling_decision.2.2 epBugs 2000 rfl

/-- Claim C3: a file whose parsed metadata lacks a required field — the
condition the code detects as `firstMissing` returning a field, which the
second conjunct shows equivalent to some mailbox-default or
endpoint-specific required field being absent — makes the watcher emit a
`parseError` event naming that field, and never a `created` or `updated`
event for the file. -/
theorem watcher_missing_required_field (config : FolderConfig)
    (endpoint : FolderEndpoint) (action : FileAction) (filePath : String)
    (fm : Frontmatter) (content bt mt : String) (f : FrontmatterField)
    (hf : firstMissing config endpoint fm = some f) :
    (f ∈ allRequired config endpoint ∧ hasKey fm f.name = false ∧
      handleFile action config endpoint filePath fm content bt mt =
        .error filePath ("Missing required frontmatter field: " ++ f.name) ∧
      (∀ m, handleFile action config endpoint filePath fm content bt mt ≠
        .created m) ∧
      (∀ m, handleFile action config endpoint filePath fm content bt mt ≠
        .updated m)) ∧
    ((∃ g ∈ allRequired config endpoint, hasKey fm g.name = false) ↔
      ∃ g, firstMissing config endpoint fm = some g) := by
  have hf' := hf
  rw [firstMissing] at hf'
  have hmem : f ∈ allRequired config endpoint := List.mem_of_find?_eq_some hf'
  have hkey0 := List.find?_some hf'
  have hkey : hasKey fm f.name = false := by simpa using hkey0
  refine ⟨⟨hmem, hkey, ?_, ?_, ?_⟩, ?_⟩
  · simp [handleFile, parseFile, hf]
  · intro m
    simp [handleFile, parseFile, hf]
  · intro m
    simp [handleFile, parseFile, hf]
  · constructor
    · intro _
      exact ⟨f, hf⟩
    · intro _
      exact ⟨f, hmem, hkey⟩

/-- Witness for C3: a file with empty frontmatter in the sample mailbox is
rejected with a `parseError` naming the missing `id` default field. -/
theorem watcher_missing_required_field_witness :
    handleFile .created sampleConfig epInbox "root/inbox/a.md" [] "c" "t0"
        "t1" =
      FolderEvent.error "root/inbox/a.md"
        "Missing required frontmatter field: id" :=
  (watcher_missing_required_field sampleConfig epInbox .created
      "root/inbox/a.md" [] "c" "t0" "t1" idField (by decide)).1.2.2.1

/-- Claim C4 counterexample: the claim states that a well-formed file whose
metadata includes an `id` field with value `X` yields a Message with id
exactly `X`; for `X = ""` the code's JS `||` falls through and derives the
id from the relative path instead, so the parsed id is `"inbox/a.md"`,
not `""`. -/
theorem parseFile_empty_id_counterexample :
    lookupKey [("id", ""), ("timestamp", "2024-01-01")] "id" = some "" ∧
    parseFile sampleConfig epInbox "root/inbox/a.md"
        [("id", ""), ("timestamp", "2024-01-01")] "body" "t0" "t1" =
      .ok emptyIdMessage ∧
    emptyIdMessage.id = "inbox/a.md" ∧ emptyIdMessage.id ≠ "" := by
  refine ⟨rfl, rfl, rfl, by decide⟩

/-- Claim C4 (amended): for every file that parses successfully, a
non-empty metadata `id` value becomes the Message id verbatim; with no
`id` field, or an `id` field holding the empty string, the id is the
file's path relative to the mailbox root. -/
theorem parseFile_id_derivation (config : FolderConfig)
    (endpoint : FolderEndpoint) (filePath : String) (fm : Frontmatter)
    (content bt mt : String) (m : Message)
    (h : parseFile config endpoint filePath fm content bt mt = .ok m) :
    (∀ x, lookupKey fm "id" = some x → x ≠ "" → m.id = x) ∧
    (lookupKey fm "id" = none →
      m.id = relativePath config.rootPath filePath) ∧
    (lookupKey fm "id" = some "" →
      m.id = relativePath config.rootPath filePath) := by
  cases hfm : firstMissing config endpoint fm with
  | some f => simp [parseFile, hfm] at h
  | none =>
    simp only [parseFile, hfm, Except.ok.injEq] at h
    subst h
    refine ⟨?_, ?_, ?_⟩
    · intro x hx hxne
      simp [hx, hxne]
    · intro hx
      simp [hx]
    · intro hx
      simp [hx]

/-- Witness for C4 at a concrete file carrying `id: "X"`. -/
theorem parseFile_id_derivation_witness : explicitIdMessage.id = "X" :=
  (parseFile_id_derivation sampleConfig epInbox "root/inbox/a.md"
      [("id", "X"), ("timestamp", "2024-01-01")] "body" "t0" "t1"
      explicitIdMessage rfl).1 "X" rfl (by decide)

/-- Claim C2: `findRoute` scans the routes sorted by priority descending
(stably, since JS sort is stable) and returns the first match under the
wildcard/exact matching rule, with a missing type treated as `'*'`; this is
exactly `bestRoute`, the earliest-declared match whose priority no other
match strictly exceeds — so the function is deterministic, equal-priority
ties go to the earliest-declared route (second conjunct), and a `'*'`/`'*'`
route of priority 10 outranks an exact-match route of priority 5 (third
conjunct). -/
theorem findRoute_priority_selection :
    (∀ (config : RouterConfig) (endpoint : String)
        (messageType : Option String),
        findRoute config endpoint messageType =
          bestRoute endpoint messageType config.routes) ∧
    findRoute tieConfig "inbox" (some "question") = some tieRouteA ∧
    findRoute prioConfig "inbox" (some "question") = some wildcardRoute := by
  refine ⟨fun config endpoint t => find?_sortRoutes endpoint t config.routes,
    by decide, by decide⟩

/-- Claim C5: the metadata `write` produces starts from the generated
`{id, timestamp}` pair and overlays the caller's `extraMetadata`, the
caller's value winning on every key collision — including the generated
`id`/`timestamp`; concretely, writing with `extraMetadata = {id: "custom"}`
yields metadata whose `id` is `"custom"`, not the generated UUID. -/
theorem write_extraMetadata_overrides :
    (∀ (config : FolderConfig) (options : WriteMessageOptions)
        (uuid ts : String) (w : WrittenFile),
        write config options uuid ts = .ok w →
        w.frontmatter = buildFrontmatter uuid ts options.frontmatter ∧
        (∀ k v, (options.frontmatter.map Prod.fst).Nodup →
          (k, v) ∈ options.frontmatter →
          lookupKey w.frontmatter k = some v)) ∧
    (write sampleConfig overrideIdOptions "UUID-1" "TS" =
        .ok overrideIdWritten ∧
      lookupKey overrideIdWritten.frontmatter "id" = some "custom" ∧
      ("custom" : String) ≠ "UUID-1") := by
  refine ⟨?_, rfl, rfl, by decide⟩
  intro config options uuid ts w hw
  cases hep : config.endpoints.find? (fun e => e.id == options.endpointId) with
  | none => simp [write, hep] at hw
  | some endpoint =>
    simp only [write, hep, Except.ok.injEq] at hw
    subst hw
    refine ⟨rfl, ?_⟩
    intro k v hnd hmem
    exact lookupKey_spread_mem options.frontmatter k v hnd hmem _

/-- Witness for C5 at the concrete id-overriding write. -/
theorem write_extraMetadata_overrides_witness :
    lookupKey overrideIdWritten.frontmatter "id" = some "custom" :=
  (write_extraMetadata_overrides.1 sampleConfig overrideIdOptions "UUID-1"
      "TS" overrideIdWritten rfl).2 "id" "custom" (by decide) (by decide)

/-- Claim C9: when `routeMessage` resolves to a workflow handler that is
registered, it returns that handler's id together with the run result's
`summary` field when one is exposed, and the fallback string
`"Processed via workflow"` (rather than failing) when none is. -/
theorem routeMessage_workflow_fallback (mastra : MastraModel)
    (config : RouterConfig) (filename endpoint : String)
    (messageType : Option String) (hId : String) (r : RunResult)
    (hh : resolveHandler config endpoint messageType = (.workflow, hId))
    (hw : (mastra.workflows.find? (fun p => p.1 == hId)).map (fun p => p.2) =
      some r) :
    routeMessage mastra config filename endpoint messageType =
      .ok (hId, workflowSummary r) ∧
    (r = .noSummary →
      routeMessage mastra config filename endpoint messageType =
        .ok (hId, "Processed via workflow")) ∧
    (∀ s, r = .withSummary s →
      routeMessage mastra config filename endpoint messageType =
        .ok (hId, s)) := by
  have h1 : routeMessage mastra config filename endpoint messageType =
      .ok (hId, workflowSummary r) := by
    unfold routeMessage
    rw [hh]
    simpa using congrArg (fun o => match o with
      | none => (Except.error ("Workflow not found: " ++ hId) :
          Except String (String × String))
      | some result => .ok (hId, workflowSummary result)) hw
  refine ⟨h1, ?_, ?_⟩
  · intro hr
    subst hr
    exact h1
  · intro s hr
    subst hr
    exact h1

/-- Witness for C9: the default workflow handler with a summary-less run
result yields the fallback text. -/
theorem routeMessage_workflow_fallback_witness :
    routeMessage mastraNoSummary wfRouterConfig "f" "inbox" none =
      .ok ("messageWorkflow", "Processed via workflow") :=
  (routeMessage_workflow_fallback mastraNoSummary wfRouterConfig "f" "inbox"
      none "messageWorkflow" .noSummary rfl rfl).2.1 rfl

/-- Claim C10: when no filename is supplied, `write` stores the file under
the generated UUID's name `<uuid>.md` even when the caller's metadata
overrides `id`; the metadata `id` is then the caller's value, so (unless
the caller picked exactly `<uuid>.md`) the on-disk name and the metadata
id differ. -/
theorem write_filename_uses_generated_uuid (config : FolderConfig)
    (options : WriteMessageOptions) (uuid ts : String)
    (endpoint : FolderEndpoint) (w : WrittenFile)
    (hep : config.endpoints.find? (fun e => e.id == options.endpointId) =
      some endpoint)
    (hfn : options.filename = none)
    (hw : write config options uuid ts = .ok w) :
    w.filePath =
      joinPath (joinPath config.rootPath endpoint.path) (uuid ++ ".md") ∧
    (∀ c, (options.frontmatter.map Prod.fst).Nodup →
      ("id", c) ∈ options.frontmatter →
      lookupKey w.frontmatter "id" = some c ∧
      (c ≠ uuid ++ ".md" → uuid ++ ".md" ≠ c)) := by
  simp only [write, hep, hfn, Except.ok.injEq] at hw
  subst hw
  refine ⟨rfl, ?_⟩
  intro c hnd hmem
  exact ⟨lookupKey_spread_mem options.frontmatter "id" c hnd hmem _,
    fun hne => fun hc => hne hc.symm⟩

/-- Witness for C10: the id-overriding write lands at `UUID-1.md` while its
metadata id is `"custom"`. -/
theorem write_filename_uses_generated_uuid_witness :
    overrideIdWritten.filePath =
      joinPath (joinPath sampleConfig.rootPath epInbox.path)
        ("UUID-1" ++ ".md") :=
  (write_filename_uses_generated_uuid sampleConfig overrideIdOptions "UUID-1"
      "TS" epInbox overrideIdWritten rfl rfl rfl).1

end AgentPS
